import Mathlib

/-!
Verification of the product CRUD repository (`crud.py`), the bank account
class (`account.py`) and the numeric predicates (`numbers.py`).

The CRUD layer is shallowly embedded: the PRODUCTS table is a list of rows
plus the store's identity counter, a connection's lifecycle is tracked by
three booleans (attempted / opened / closed), and the store/driver
exceptions that each `try` block can observe are enumerated by a fault
parameter naming the step that raises (or `ok` for a fault-free run).
Every operation is a total Lean function: the Python code catches every
exception at the operation boundary, so no exception channel is needed in
the result type.
-/

/-- A row of the PRODUCTS table: columns pid, pname, qty, price. -/
structure Product where
  pid : Nat
  pname : String
  qty : Int
  price : Rat
deriving DecidableEq, Repr

/-- The store's state: the PRODUCTS table plus the next identity value the
store will assign (auto-increment surrogate key). -/
structure DB where
  rows : List Product
  nextId : Nat
deriving DecidableEq, Repr

/-- Result of one repository operation: the returned value, the store state
after the call, and the connection lifecycle — whether a connection was
attempted (`get_connection` called), successfully opened, and closed by the
`finally` block. -/
structure CrudResult (α : Type) where
  value : α
  db : DB
  connAttempted : Bool
  connOpened : Bool
  connClosed : Bool
deriving DecidableEq, Repr

/-- Which step of `create_product` raises: `pyodbc.connect`, the INSERT
execute, `conn.commit()`, or the `SELECT @@IDENTITY` / `fetchone` pair. -/
inductive CreateFault
  | ok | connect | insert | commit | identity
deriving DecidableEq, Repr

/-- Which step of a read operation raises: `pyodbc.connect` or the SELECT
execute/fetch. -/
inductive ReadFault
  | ok | connect | query
deriving DecidableEq, Repr

/-- Which step of `update_product` / `delete_product` raises:
`pyodbc.connect`, the UPDATE/DELETE execute, or `conn.commit()`. -/
inductive WriteFault
  | ok | connect | exec | commit
deriving DecidableEq, Repr

/-- `create_product` (crud.py lines 30-67).  Control flow of the Python:
`INSERT` executes, `conn.commit()` runs, and only then is
`SELECT @@IDENTITY` executed.  A raise at connect is caught with
`conn = None` (no rollback, no close); a raise at insert or commit is
caught and the rollback discards the uncommitted insert; a raise at
identity retrieval happens after the commit, so the rollback has nothing
to undo and the inserted row stays in the table.  On every path the
function returns (`some pid` or `none`) instead of raising. -/
def create_product (db : DB) (pname : String) (qty : Int) (price : Rat)
    (f : CreateFault) : CrudResult (Option Nat) :=
  match f with
  | .connect => ⟨none, db, true, false, false⟩
  | .insert => ⟨none, db, true, true, true⟩
  | .commit => ⟨none, db, true, true, true⟩
  | .identity =>
      ⟨none,
       { rows := db.rows ++ [⟨db.nextId, pname, qty, price⟩],
         nextId := db.nextId + 1 },
       true, true, true⟩
  | .ok =>
      ⟨some db.nextId,
       { rows := db.rows ++ [⟨db.nextId, pname, qty, price⟩],
         nextId := db.nextId + 1 },
       true, true, true⟩

/-- `read_product` (crud.py lines 70-108): SELECT the first row whose pid
matches; `none` when no row matches or when a step raises. -/
def read_product (db : DB) (pid : Nat) (f : ReadFault) :
    CrudResult (Option Product) :=
  match f with
  | .connect => ⟨none, db, true, false, false⟩
  | .query => ⟨none, db, true, true, true⟩
  | .ok => ⟨db.rows.find? (fun r => r.pid == pid), db, true, true, true⟩

/-- `read_all_products` (crud.py lines 111-146): SELECT all rows in table
order; the empty list on a fault. -/
def read_all_products (db : DB) (f : ReadFault) :
    CrudResult (List Product) :=
  match f with
  | .connect => ⟨[], db, true, false, false⟩
  | .query => ⟨[], db, true, true, true⟩
  | .ok => ⟨db.rows, db, true, true, true⟩

/-- Python truthiness of the optional `pname` argument: `None` and the
empty string are falsy. -/
def truthyStr : Option String → Bool
  | none => false
  | some s => s != ""

/-- Python truthiness of the optional `qty` argument: `None` and `0` are
falsy. -/
def truthyInt : Option Int → Bool
  | none => false
  | some n => n != 0

/-- Python truthiness of the optional `price` argument: `None` and `0.0`
are falsy. -/
def truthyRat : Option Rat → Bool
  | none => false
  | some x => x != 0

/-- The SET clause built by `update_product` (crud.py lines 171-183): each
field enters the clause iff its argument `is not None`; a `None` field
keeps the row's prior value. -/
def applyFields (pname : Option String) (qty : Option Int)
    (price : Option Rat) (r : Product) : Product :=
  { pid := r.pid,
    pname := pname.getD r.pname,
    qty := qty.getD r.qty,
    price := price.getD r.price }

/-- `update_product` (crud.py lines 149-206).  The guard
`if not any([pname, qty, price])` tests Python truthiness, so the fast
return-False path fires whenever every supplied field is falsy
(`None`, `0`, `0.0`, `""`) — before any store access.  Otherwise the
UPDATE touches every row matching pid (the SET clause per `applyFields`),
the commit runs, and the result is `rowcount > 0`.  A raise at exec or
commit rolls the transaction back, leaving the table unchanged. -/
def update_product (db : DB) (pid : Nat) (pname : Option String)
    (qty : Option Int) (price : Option Rat) (f : WriteFault) :
    CrudResult Bool :=
  if !(truthyStr pname || truthyInt qty || truthyRat price) then
    ⟨false, db, false, false, false⟩
  else
    match f with
    | .connect => ⟨false, db, true, false, false⟩
    | .exec => ⟨false, db, true, true, true⟩
    | .commit => ⟨false, db, true, true, true⟩
    | .ok =>
        ⟨decide (0 < db.rows.countP (fun r => r.pid == pid)),
         { db with
           rows := db.rows.map (fun r =>
             if r.pid == pid then applyFields pname qty price r else r) },
         true, true, true⟩

/-- `delete_product` (crud.py lines 209-243): DELETE every row matching
pid, commit, return `rowcount > 0`; a raise at exec or commit rolls back,
leaving the table unchanged. -/
def delete_product (db : DB) (pid : Nat) (f : WriteFault) :
    CrudResult Bool :=
  match f with
  | .connect => ⟨false, db, true, false, false⟩
  | .exec => ⟨false, db, true, true, true⟩
  | .commit => ⟨false, db, true, true, true⟩
  | .ok =>
      ⟨decide (0 < db.rows.countP (fun r => r.pid == pid)),
       { db with rows := db.rows.filter (fun r => !(r.pid == pid)) },
       true, true, true⟩

/-- `Account` (account.py): account number, customer name, balance. -/
structure Account where
  account_no : Nat
  customer_name : String
  balance : Int
deriving DecidableEq, Repr

/-- `Account.deposit` (account.py): raises ValueError when
`amount <= 0` (modelled as `none`, balance untouched), otherwise adds the
amount to the balance. -/
def Account.deposit (a : Account) (amount : Int) : Option Account :=
  if amount ≤ 0 then none
  else some { a with balance := a.balance + amount }

/-- `Account.withdraw` (account.py): subtracts the amount only when
`amount > 0` and `amount <= balance`; otherwise prints a message and
leaves the balance unchanged (no exception). -/
def Account.withdraw (a : Account) (amount : Int) : Account :=
  if 0 < amount then
    if amount ≤ a.balance then { a with balance := a.balance - amount }
    else a
  else a

/-- `isprime` (numbers.py): False for `num <= 1`, otherwise trial division
over Python's `range(2, int(num**0.5) + 1)`; `int(num**0.5)` is the
integer square root, modelled by `Nat.sqrt`. -/
def isprime (num : Int) : Bool :=
  if num ≤ 1 then false
  else
    (List.range' 2 (Nat.sqrt num.toNat + 1 - 2)).all
      (fun i => num.toNat % i != 0)

/-- `isperfect` (numbers.py): False for `num < 1`, otherwise compares
`num` with the sum of `range(1, num)` filtered to the divisors of num. -/
def isperfect (num : Int) : Bool :=
  if num < 1 then false
  else
    ((List.range' 1 (num.toNat - 1)).filter
      (fun i => num.toNat % i == 0)).sum == num.toNat

/-- C1 (counterexample): the claim says a call supplying `quantity = 0`
does not report a usage fault and proceeds to the store.  In the code,
`if not any([pname, qty, price])` tests truthiness, so
`update_product(5, qty=0)` on a table that contains pid 5 returns False
with no store access at all. -/
theorem C1_counterexample :
    (update_product ⟨[⟨5, "Laptop", 10, 999⟩], 6⟩ 5 none (some 0) none
        WriteFault.ok).value = false ∧
    (update_product ⟨[⟨5, "Laptop", 10, 999⟩], 6⟩ 5 none (some 0) none
        WriteFault.ok).connAttempted = false := by
  constructor <;> rfl

/-- C1 (amended): `update_product` reports the usage fault — returns false
before any store access, with the table untouched — exactly when no
*truthy* field is supplied: a supplied `""`, `0` or `0.0` counts as not
supplied by the guard `if not any([pname, qty, price])`.  Whenever some
supplied field is truthy, the operation proceeds to access the store. -/
theorem C1_update_usage_fault (db : DB) (pid : Nat) (pname : Option String)
    (qty : Option Int) (price : Option Rat) (f : WriteFault) :
    ((update_product db pid pname qty price f).connAttempted =
      (truthyStr pname || truthyInt qty || truthyRat price)) ∧
    ((truthyStr pname || truthyInt qty || truthyRat price) = false →
      (update_product db pid pname qty price f).value = false ∧
      (update_product db pid pname qty price f).db = db) := by
  unfold update_product
  by_cases h : (truthyStr pname || truthyInt qty || truthyRat price) = true
  · simp only [h, Bool.not_true, Bool.false_eq_true, if_false]
    refine ⟨?_, by simp⟩
    cases f <;> rfl
  · simp only [Bool.not_eq_true] at h
    simp [h]

/-- C1 witness: a concrete call with a truthy field reaches the store, and
a concrete all-falsy call is rejected with the table untouched. -/
theorem C1_update_usage_fault_witness :
    (update_product ⟨[], 1⟩ 3 (some "x") none none WriteFault.ok).connAttempted
      = true ∧
    (update_product ⟨[], 1⟩ 3 none none none WriteFault.ok).value = false ∧
    (update_product ⟨[], 1⟩ 3 none none none WriteFault.ok).db = ⟨[], 1⟩ := by
  refine ⟨?_, ?_, ?_⟩
  · exact (C1_update_usage_fault ⟨[], 1⟩ 3 (some "x") none none .ok).1
  · exact ((C1_update_usage_fault ⟨[], 1⟩ 3 none none none .ok).2 rfl).1
  · exact ((C1_update_usage_fault ⟨[], 1⟩ 3 none none none .ok).2 rfl).2

/-- C2 (counterexample): the claim says that if identity retrieval raises,
the transaction is rolled back and no new row remains.  In the code the
commit happens *before* `SELECT @@IDENTITY`, so a raise during identity
retrieval leaves the committed row in the table while `create` returns no
identifier: on an empty table the row count after the failed call is 1. -/
theorem C2_counterexample :
    (create_product ⟨[], 1⟩ "Laptop" 10 999 CreateFault.identity).value
      = none ∧
    (create_product ⟨[], 1⟩ "Laptop" 10 999 CreateFault.identity).db.rows
      = [⟨1, "Laptop", 10, 999⟩] := by
  constructor <;> rfl

/-- C2 (amended): `create_product` inserts the row, *commits*, and only
then retrieves the store-assigned identifier.  A raise at connect, insert
or commit leaves the table unchanged (rollback of the uncommitted work),
returns no identifier, and is not re-raised; a raise during identity
retrieval happens after the commit, so the new row *remains* in the table
while create still returns no identifier and does not raise.  A fault-free
run returns the assigned identifier of the appended row. -/
theorem C2_create_commit_order (db : DB) (pname : String) (qty : Int)
    (price : Rat) :
    ((create_product db pname qty price CreateFault.ok).value
        = some db.nextId ∧
      (create_product db pname qty price CreateFault.ok).db.rows
        = db.rows ++ [⟨db.nextId, pname, qty, price⟩]) ∧
    ((create_product db pname qty price CreateFault.connect).value = none ∧
      (create_product db pname qty price CreateFault.connect).db = db) ∧
    ((create_product db pname qty price CreateFault.insert).value = none ∧
      (create_product db pname qty price CreateFault.insert).db = db) ∧
    ((create_product db pname qty price CreateFault.commit).value = none ∧
      (create_product db pname qty price CreateFault.commit).db = db) ∧
    ((create_product db pname qty price CreateFault.identity).value = none ∧
      (create_product db pname qty price CreateFault.identity).db.rows
        = db.rows ++ [⟨db.nextId, pname, qty, price⟩]) := by
  exact ⟨⟨rfl, rfl⟩, ⟨rfl, rfl⟩, ⟨rfl, rfl⟩, ⟨rfl, rfl⟩, rfl, rfl⟩

/-- C5 (counterexample): the claim says that with at least one field
supplied, update returns true iff a row with that id exists.  Supplying
only `price = 0.0` on a table containing pid 7 returns False even though
the row exists, because the truthiness guard treats `0.0` as no field. -/
theorem C5_counterexample :
    (update_product ⟨[⟨7, "Mouse", 50, 29⟩], 8⟩ 7 none none (some 0)
        WriteFault.ok).value = false ∧
    (⟨[⟨7, "Mouse", 50, 29⟩], 8⟩ : DB).rows.any (fun r => r.pid == 7)
      = true := by
  constructor <;> rfl

/-- C5 (amended): with at least one *truthy* field supplied (a supplied
`0`, `0.0`, `""` or `None` does not count), a fault-free
`update_product(id, ...)` returns true iff some row with that pid exists;
a fault-free `delete_product(id)` returns true iff some row with that pid
existed (and removes it); and a second delete of the same pid returns
false rather than erroring. -/
theorem C5_affected_iff_exists (db : DB) (pid : Nat) (pname : Option String)
    (qty : Option Int) (price : Option Rat)
    (h : (truthyStr pname || truthyInt qty || truthyRat price) = true) :
    ((update_product db pid pname qty price WriteFault.ok).value = true ↔
      db.rows.any (fun r => r.pid == pid) = true) ∧
    ((delete_product db pid WriteFault.ok).value = true ↔
      db.rows.any (fun r => r.pid == pid) = true) ∧
    (delete_product (delete_product db pid WriteFault.ok).db pid
        WriteFault.ok).value = false := by
  refine ⟨?_, ?_, ?_⟩
  · simp [update_product, h, List.any_eq_true]
  · simp [delete_product, List.any_eq_true]
  · simp [delete_product, List.mem_filter]

/-- C5 witness: on a one-row table, updating the existing pid with a
truthy name succeeds, deleting it succeeds, and a second delete fails. -/
theorem C5_affected_iff_exists_witness :
    ((update_product ⟨[⟨1, "A", 2, 3⟩], 2⟩ 1 (some "B") none none
        WriteFault.ok).value = true) ∧
    ((delete_product ⟨[⟨1, "A", 2, 3⟩], 2⟩ 1 WriteFault.ok).value = true) ∧
    (delete_product (delete_product ⟨[⟨1, "A", 2, 3⟩], 2⟩ 1
        WriteFault.ok).db 1 WriteFault.ok).value = false := by
  have h := C5_affected_iff_exists ⟨[⟨1, "A", 2, 3⟩], 2⟩ 1 (some "B") none
    none rfl
  exact ⟨h.1.mpr rfl, h.2.1.mpr rfl, h.2.2⟩

/-- C3: on a well-formed store (every existing pid is below the identity
counter), a successful fault-free `create_product` returning `pid`
followed immediately by `read_product pid` yields a Product whose pname,
qty and price equal the inputs given to create. -/
theorem C3_create_read_roundtrip (db : DB) (pname : String) (qty : Int)
    (price : Rat) (hfresh : ∀ r ∈ db.rows, r.pid < db.nextId) :
    ∀ pid, (create_product db pname qty price CreateFault.ok).value
        = some pid →
      (read_product (create_product db pname qty price CreateFault.ok).db
        pid ReadFault.ok).value = some ⟨pid, pname, qty, price⟩ := by
  intro pid hpid
  have hp : pid = db.nextId := by
    have : some db.nextId = some pid := hpid
    exact (Option.some.inj this).symm
  subst hp
  simp only [create_product, read_product]
  rw [List.find?_append]
  have h1 : db.rows.find? (fun r => r.pid == db.nextId) = none := by
    rw [List.find?_eq_none]
    intro x hx
    simp only [beq_iff_eq]
    exact Nat.ne_of_lt (hfresh x hx)
  rw [h1]
  simp

/-- C3 witness: creating ("Laptop", 10, 999) on the empty store and
reading back the returned id yields exactly those fields. -/
theorem C3_create_read_roundtrip_witness :
    (read_product (create_product ⟨[], 1⟩ "Laptop" 10 999
        CreateFault.ok).db 1 ReadFault.ok).value
      = some ⟨1, "Laptop", 10, 999⟩ := by
  exact C3_create_read_roundtrip ⟨[], 1⟩ "Laptop" 10 999 (by simp) 1 rfl

/-- C4: a successful fault-free `update_product` rewrites exactly the rows
matching the pid, and on such a row exactly the supplied (non-None)
fields take the supplied values — `Option.getD` keeps the prior value for
each unsupplied field — while the pid, all unsupplied fields, all other
rows, and the identity counter retain their prior values. -/
theorem C4_update_frame (db : DB) (pid : Nat) (pname : Option String)
    (qty : Option Int) (price : Option Rat)
    (h : (update_product db pid pname qty price WriteFault.ok).value
      = true) :
    (update_product db pid pname qty price WriteFault.ok).db.rows =
      db.rows.map (fun r =>
        if r.pid = pid then
          { pid := r.pid, pname := pname.getD r.pname,
            qty := qty.getD r.qty, price := price.getD r.price }
        else r) ∧
    (update_product db pid pname qty price WriteFault.ok).db.nextId
      = db.nextId := by
  unfold update_product at h ⊢
  by_cases hg : (truthyStr pname || truthyInt qty || truthyRat price) = true
  · simp only [hg, Bool.not_true, Bool.false_eq_true, if_false]
    constructor
    · have hfun : (fun r : Product =>
          if r.pid == pid then applyFields pname qty price r else r)
          = (fun r : Product =>
          if r.pid = pid then
            { pid := r.pid, pname := pname.getD r.pname,
              qty := qty.getD r.qty, price := price.getD r.price }
          else r) := by
        funext r
        by_cases hp : r.pid = pid <;> simp [hp, applyFields]
      rw [hfun]
    · trivial
  · simp only [Bool.not_eq_true] at hg
    simp [hg] at h

/-- C4 witness: updating pid 1 of a two-row table with only a new name
changes that name alone and keeps the other row and counter intact. -/
theorem C4_update_frame_witness :
    (update_product ⟨[⟨1, "A", 2, 3⟩, ⟨2, "B", 4, 5⟩], 3⟩ 1 (some "Z")
        none none WriteFault.ok).db.rows
      = [⟨1, "Z", 2, 3⟩, ⟨2, "B", 4, 5⟩] := by
  have h := C4_update_frame ⟨[⟨1, "A", 2, 3⟩, ⟨2, "B", 4, 5⟩], 3⟩ 1
    (some "Z") none none rfl
  rw [h.1]
  rfl

/-- C6: every operation normalizes every store/driver fault — at connect,
execute or commit — into its failure outcome (`none` for create and
read-one, `[]` for read-all, `false` for update and delete).  Each
operation is a total function into `CrudResult`, so no exception
propagates to the caller on any path. -/
theorem C6_faults_normalized :
    (∀ db pname qty price f, f ≠ CreateFault.ok →
      (create_product db pname qty price f).value = none) ∧
    (∀ db pid f, f ≠ ReadFault.ok → (read_product db pid f).value = none) ∧
    (∀ db f, f ≠ ReadFault.ok → (read_all_products db f).value = []) ∧
    (∀ db pid pname qty price f, f ≠ WriteFault.ok →
      (update_product db pid pname qty price f).value = false) ∧
    (∀ db pid f, f ≠ WriteFault.ok → (delete_product db pid f).value
      = false) := by
  refine ⟨?_, ?_, ?_, ?_, ?_⟩
  · rintro db pname qty price f hf
    cases f <;> simp_all [create_product]
  · rintro db pid f hf
    cases f <;> simp_all [read_product]
  · rintro db f hf
    cases f <;> simp_all [read_all_products]
  · rintro db pid pname qty price f hf
    unfold update_product
    cases f <;> simp_all <;> split <;> rfl
  · rintro db pid f hf
    cases f <;> simp_all [delete_product]

/-- C6 witness: a commit fault in each mutating operation and a query
fault in each read yield the normalized failure values. -/
theorem C6_faults_normalized_witness :
    (create_product ⟨[], 1⟩ "A" 2 3 CreateFault.commit).value = none ∧
    (read_product ⟨[], 1⟩ 1 ReadFault.query).value = none ∧
    (read_all_products ⟨[], 1⟩ ReadFault.query).value = [] ∧
    (update_product ⟨[], 1⟩ 1 (some "B") none none WriteFault.commit).value
      = false ∧
    (delete_product ⟨[], 1⟩ 1 WriteFault.commit).value = false := by
  have h := C6_faults_normalized
  exact ⟨h.1 ⟨[], 1⟩ "A" 2 3 .commit (by simp),
    h.2.1 ⟨[], 1⟩ 1 .query (by simp),
    h.2.2.1 ⟨[], 1⟩ .query (by simp),
    h.2.2.2.1 ⟨[], 1⟩ 1 (some "B") none none .commit (by simp),
    h.2.2.2.2 ⟨[], 1⟩ 1 .commit (by simp)⟩

/-- C7: on every path of every operation the connection is closed iff it
was opened — the `finally: if conn: conn.close()` releases every opened
connection before returning, and when acquisition itself raises
(`connect` fault) no connection was opened, so none is left behind.  Each
operation acquires its own connection from its own `get_connection()`
call; no connection value is shared across operations in the model. -/
theorem C7_connection_released :
    (∀ db pname qty price f,
      (create_product db pname qty price f).connClosed
        = (create_product db pname qty price f).connOpened ∧
      (create_product db pname qty price CreateFault.connect).connOpened
        = false) ∧
    (∀ db pid f,
      (read_product db pid f).connClosed = (read_product db pid f).connOpened ∧
      (read_product db pid ReadFault.connect).connOpened = false) ∧
    (∀ db f,
      (read_all_products db f).connClosed
        = (read_all_products db f).connOpened ∧
      (read_all_products db ReadFault.connect).connOpened = false) ∧
    (∀ db pid pname qty price f,
      (update_product db pid pname qty price f).connClosed
        = (update_product db pid pname qty price f).connOpened ∧
      (update_product db pid pname qty price WriteFault.connect).connOpened
        = false) ∧
    (∀ db pid f,
      (delete_product db pid f).connClosed
        = (delete_product db pid f).connOpened ∧
      (delete_product db pid WriteFault.connect).connOpened = false) := by
  refine ⟨?_, ?_, ?_, ?_, ?_⟩
  · intro db pname qty price f
    exact ⟨by cases f <;> rfl, rfl⟩
  · intro db pid f
    exact ⟨by cases f <;> rfl, rfl⟩
  · intro db f
    exact ⟨by cases f <;> rfl, rfl⟩
  · intro db pid pname qty price f
    constructor
    · unfold update_product
      split
      · rfl
      · cases f <;> rfl
    · unfold update_product
      split <;> rfl
  · intro db pid f
    exact ⟨by cases f <;> rfl, rfl⟩

/-- C8: starting from a non-negative balance, every `withdraw` leaves the
balance non-negative — it subtracts the amount exactly when
`0 < amount ≤ balance` and otherwise changes nothing without raising —
and `deposit` raises (`none`) on `amount ≤ 0` leaving the balance
untouched, while a positive deposit adds the amount, keeping the balance
non-negative. -/
theorem C8_account_nonneg (a : Account) (amount : Int)
    (h : 0 ≤ a.balance) :
    (0 ≤ (a.withdraw amount).balance ∧
      (a.withdraw amount).balance =
        (if 0 < amount ∧ amount ≤ a.balance then a.balance - amount
         else a.balance)) ∧
    (amount ≤ 0 → a.deposit amount = none) ∧
    (0 < amount →
      a.deposit amount = some { a with balance := a.balance + amount } ∧
      0 ≤ (a.balance + amount)) := by
  refine ⟨?_, ?_, ?_⟩
  · unfold Account.withdraw
    split
    · split
      · constructor
        · simp only []
          omega
        · simp_all
      · simp_all
        omega
    · simp_all
      omega
  · intro hle
    unfold Account.deposit
    simp [hle]
  · intro hpos
    unfold Account.deposit
    refine ⟨?_, by omega⟩
    rw [if_neg (by omega)]

/-- C8 witness: withdrawing 3 from a balance of 10 leaves 7 ≥ 0, a
deposit of -1 raises, and a deposit of 5 yields balance 15. -/
theorem C8_account_nonneg_witness :
    0 ≤ ((Account.mk 1 "a" 10).withdraw 3).balance ∧
    (Account.mk 1 "a" 10).deposit (-1) = none ∧
    (Account.mk 1 "a" 10).deposit 5 = some (Account.mk 1 "a" 15) := by
  have h := C8_account_nonneg (Account.mk 1 "a" 10) 3 (by norm_num)
  have h2 := C8_account_nonneg (Account.mk 1 "a" 10) (-1) (by norm_num)
  have h3 := C8_account_nonneg (Account.mk 1 "a" 10) 5 (by norm_num)
  exact ⟨h.1.1, h2.2.1 (by norm_num), (h3.2.2 (by norm_num)).1⟩

/-- C9: for every integer num, `isprime num` is true iff num is prime in
the claim's sense — `2 ≤ num` and num has no divisor d with
`2 ≤ d < num` — so every `num ≤ 1` yields false, and trial division up to
`int(num**0.5) + 1` (exclusive) decides primality. -/
theorem C9_isprime_iff (num : Int) :
    isprime num = true ↔
      (2 ≤ num ∧ ∀ d : Int, 2 ≤ d → d < num → ¬ d ∣ num) := by
  by_cases h1 : num ≤ 1
  · simp only [isprime, if_pos h1, Bool.false_eq_true, false_iff, not_and]
    intro h2
    omega
  · push_neg at h1
    obtain ⟨n, rfl⟩ := Int.eq_ofNat_of_zero_le (by omega : (0 : Int) ≤ num)
    have hn2 : 2 ≤ n := by exact_mod_cast h1
    have hsq1 : 1 ≤ Nat.sqrt n := Nat.sqrt_pos.mpr (by omega)
    simp only [isprime, if_neg (by exact_mod_cast h1.not_le : ¬ (n : Int) ≤ 1),
      Int.toNat_ofNat, List.all_eq_true]
    constructor
    · intro hall
      refine ⟨by exact_mod_cast h1, ?_⟩
      have hprime : Nat.Prime n := by
        rw [Nat.prime_def_le_sqrt]
        refine ⟨hn2, ?_⟩
        intro m hm2 hmsq hdvd
        have hmem : m ∈ List.range' 2 (Nat.sqrt n + 1 - 2) := by
          rw [List.mem_range'_1]
          omega
        have hne := hall m hmem
        simp only [bne_iff_ne, ne_eq] at hne
        exact hne (Nat.dvd_iff_mod_eq_zero.mp hdvd)
      rw [Nat.prime_def_lt] at hprime
      intro d hd2 hdn hdvd
      obtain ⟨m, rfl⟩ := Int.eq_ofNat_of_zero_le (by omega : (0 : Int) ≤ d)
      have hmn : m < n := by exact_mod_cast hdn
      have hmdvd : m ∣ n := by rwa [Int.natCast_dvd_natCast] at hdvd
      have := hprime.2 m hmn hmdvd
      have hm2' : 2 ≤ m := by exact_mod_cast hd2
      omega
    · rintro ⟨-, hno⟩
      intro i hi
      rw [List.mem_range'_1] at hi
      simp only [bne_iff_ne, ne_eq]
      intro hmod
      have hdvd : i ∣ n := Nat.dvd_iff_mod_eq_zero.mpr hmod
      have hsn : Nat.sqrt n < n := Nat.sqrt_lt_self (by omega)
      refine hno (i : Int) (by exact_mod_cast hi.1) ?_ ?_
      · exact_mod_cast (by omega : i < n)
      · exact_mod_cast hdvd

/-- C10: for every integer num, `isperfect num` is true iff `1 ≤ num` and
the sum of the proper divisors of num (the positive divisors strictly
below num) equals num; in particular every `num < 1` yields false, and
`isperfect 1` is false since 1 has no proper divisor. -/
theorem C10_isperfect_iff (num : Int) :
    isperfect num = true ↔
      (1 ≤ num ∧
        ((∑ d ∈ Nat.properDivisors num.toNat, d : Nat) : Int) = num) := by
  by_cases h1 : num < 1
  · simp only [isperfect, if_pos h1, Bool.false_eq_true, false_iff, not_and]
    intro h2
    omega
  · push_neg at h1
    obtain ⟨n, rfl⟩ := Int.eq_ofNat_of_zero_le (by omega : (0 : Int) ≤ num)
    have hn1 : 1 ≤ n := by exact_mod_cast h1
    have hsum : ((List.range' 1 (n - 1)).filter
        (fun i => n % i == 0)).sum = ∑ d ∈ Nat.properDivisors n, d := by
      have hnd : ((List.range' 1 (n - 1)).filter
          (fun i => n % i == 0)).Nodup :=
        (List.nodup_range' 1 (n - 1)).filter _
      have htf : ((List.range' 1 (n - 1)).filter
          (fun i => n % i == 0)).toFinset = Nat.properDivisors n := by
        ext x
        simp only [List.mem_toFinset, List.mem_filter, List.mem_range'_1,
          beq_iff_eq, Nat.mem_properDivisors]
        constructor
        · rintro ⟨⟨hx1, hx2⟩, hmod⟩
          exact ⟨Nat.dvd_iff_mod_eq_zero.mpr hmod, by omega⟩
        · rintro ⟨hdvd, hlt⟩
          have hx1 : 1 ≤ x := by
            rcases Nat.eq_zero_or_pos x with h0 | h0
            · subst h0
              have : n = 0 := Nat.eq_zero_of_zero_dvd hdvd
              omega
            · omega
          exact ⟨⟨hx1, by omega⟩, Nat.dvd_iff_mod_eq_zero.mp hdvd⟩
      have h := List.sum_toFinset (fun d => d) hnd
      rw [htf] at h
      rw [h, List.map_id']
    simp only [isperfect,
      if_neg (by exact_mod_cast h1.not_lt : ¬ (n : Int) < 1),
      Int.toNat_ofNat, beq_iff_eq, hsum]
    constructor
    · intro hperf
      exact ⟨h1, by exact_mod_cast hperf⟩
    · rintro ⟨-, heq⟩
      exact_mod_cast heq

